import Mathlib

/-!
Shallow embedding of `src/cmaes_integration/run_cmaes.py`.

The script drives a CMA-ES optimization loop: it writes a CSV header,
constructs an optimizer from a mean vector (simulator-provided defaults
repeated per actuator) and a sigma, and per generation asks the optimizer
for `population_size` candidates, evaluates each through the simulator,
tells the whole batch back, and appends one row (generation, fitness and
components of the first collected pair) to the log.

The optimizer (`cmaes.CMA`) and the simulator (`run_simulation`) are
external collaborators; they are embedded as abstract parameters: an
`Optimizer` state machine and a `SimCfg` record of the constants and of
the `run` function the driver consumes. The driver itself is embedded
faithfully: the log is the list of rows written to `output.csv`, and a
trace of `Event`s records every optimizer/simulator interaction in order.
Numbers are modelled as rationals.
-/

/-- Decimal digits of `n`, least significant first; `fuel` bounds recursion
depth (structural recursion so the kernel can evaluate it). Models the
digit stream of Python `str(int)` for nonnegative `n`. -/
def natDigitsRev : Nat → Nat → List Char
  | 0, _ => []
  | fuel + 1, n => if n = 0 then [] else Nat.digitChar (n % 10) :: natDigitsRev fuel (n / 10)

/-- The character list of Python `str` on a nonnegative integer: usual
decimal rendering, most significant digit first. -/
def pyDigits (n : Nat) : List Char :=
  if n = 0 then ['0'] else (natDigitsRev n n).reverse

/-- Python `str` on a nonnegative integer. -/
def pyStr (n : Nat) : String :=
  ⟨pyDigits n⟩

/-- The run label passed to the simulator for generation `g`, slot `i`:
`str(generation) + "_" + str(indv_num)` in the source. -/
def mkLabel (g i : Nat) : String :=
  pyStr g ++ "_" ++ pyStr i

/-- One CSV cell: the header holds strings, data rows hold numbers. -/
inductive Cell where
  | str : String → Cell
  | num : ℚ → Cell
deriving DecidableEq, Repr

/-- The CSV header built at the start of `run_cma_es`:
`['generation', 'best_fitness']` then, for each actuator `i`, the triple
`'frequency<i>', 'amplitude<i>', 'phase_offset<i>'`. -/
def csv_header (numActuators : Nat) : List String :=
  ["generation", "best_fitness"] ++
    (List.range numActuators).flatMap (fun i =>
      ["frequency" ++ pyStr i, "amplitude" ++ pyStr i, "phase_offset" ++ pyStr i])

/-- The constants and the `run` entry point the driver consumes from the
simulator collaborator (`run_simulation as sim`). `run` takes the
iteration budget, the candidate, the mode and the run label, and returns
the fitness. -/
structure SimCfg where
  NUM_ACTUATORS : Nat
  NUM_ITERS : Nat
  AVG_FREQ : ℚ
  AVG_AMP : ℚ
  AVG_PHASE_OFFSET : ℚ
  run : Nat → List ℚ → String → String → ℚ

/-- The interface the driver consumes from a constructed optimizer:
a population-size property, a draw operation and a batch report
operation, as a state machine over states `σ`. -/
structure Optimizer (σ : Type) where
  popSize : σ → Nat
  ask : σ → List ℚ × σ
  tell : σ → List (List ℚ × ℚ) → σ

/-- One recorded interaction with a collaborator, in program order. -/
inductive Event where
  | ask : Event
  | simRun : Nat → List ℚ → String → String → Event
  | tell : List (List ℚ × ℚ) → Event
deriving DecidableEq, Repr

/-- Rewrite the mode argument recorded in a simulator-call event. -/
def Event.setMode (m : String) : Event → Event
  | simRun i x _ l => simRun i x m l
  | e => e

/-- The observable outcome of a run: the rows of `output.csv` in order,
the collaborator-interaction trace, and whether the run completed
normally (`ok = false` models an uncaught exception). -/
structure RunOutcome where
  log : List (List Cell)
  trace : List Event
  ok : Bool
deriving DecidableEq, Repr

/-- The initial mean passed to the optimizer constructor:
`[sim.AVG_FREQ, sim.AVG_AMP, sim.AVG_PHASE_OFFSET] * sim.NUM_ACTUATORS`
(Python list repetition). -/
def initialMean (sim : SimCfg) : List ℚ :=
  (List.replicate sim.NUM_ACTUATORS [sim.AVG_FREQ, sim.AVG_AMP, sim.AVG_PHASE_OFFSET]).flatten

/-- The inner loop of one generation
(`for indv_num in range(optimizer.population_size)`): for each slot index,
draw a candidate, evaluate it via the simulator with the fixed iteration
budget, the mode and the `generation_slot` label, and collect the
`(candidate, fitness)` pair. Returns the collected pairs, the events in
order, and the optimizer state after the draws. -/
def askAll {σ : Type} (opt : Optimizer σ) (sim : SimCfg) (mode : String) (g : Nat) :
    List Nat → σ → List (List ℚ × ℚ) × List Event × σ
  | [], s => ([], [], s)
  | i :: rest, s =>
    let a := opt.ask s
    let label := mkLabel g i
    let fitness := sim.run sim.NUM_ITERS a.1 mode label
    let r := askAll opt sim mode g rest a.2
    ((a.1, fitness) :: r.1, Event.ask :: Event.simRun sim.NUM_ITERS a.1 mode label :: r.2.1, r.2.2)

/-- One generation body: read `population_size` from the current state,
run the inner loop over slots `0, …, population_size - 1`, tell the
whole batch back, and build the row
`[generation, solutions[0][1]] + solutions[0][0]` appended to the log.
`none` in the second component models the uncaught `IndexError` that
`solutions[0]` raises when the population is empty (the tell and its
event have already happened at that point). -/
def genStep {σ : Type} (opt : Optimizer σ) (sim : SimCfg) (mode : String) (g : Nat) (s : σ) :
    List Event × Option (List Cell × σ) :=
  let n := opt.popSize s
  let r := askAll opt sim mode g (List.range n) s
  let s2 := opt.tell r.2.2 r.1
  match r.1 with
  | [] => (r.2.1 ++ [Event.tell []], none)
  | (x0, f0) :: tl =>
    (r.2.1 ++ [Event.tell ((x0, f0) :: tl)],
      some ([Cell.num (g : ℚ), Cell.num f0] ++ x0.map Cell.num, s2))

/-- The outer loop over generation indices, threading the optimizer state
and accumulating the log rows and the event trace. A `none` from a
generation body terminates the run abnormally with whatever log and trace
were produced so far. -/
def genFold {σ : Type} (opt : Optimizer σ) (sim : SimCfg) (mode : String) :
    List Nat → σ → List (List Cell) → List Event → RunOutcome
  | [], _, log, tr => ⟨log, tr, true⟩
  | g :: rest, s, log, tr =>
    match genStep opt sim mode g s with
    | (evs, none) => ⟨log, tr ++ evs, false⟩
    | (evs, some rs) => genFold opt sim mode rest rs.2 (log ++ [rs.1]) (tr ++ evs)

/-- The embedding of `run_cma_es(mode, gens, sigma_val)`. `initOpt` is the
optimizer constructor (the `CMA(mean=…, sigma=…)` call of the external
library), returning `none` when construction raises. The header row is
written first (truncating the file); then the optimizer is constructed;
then `range(gens)` generations run. `gens` is an `Int` because the CLI
parses it as a (possibly negative) integer; `range` of a nonpositive
integer is empty. -/
def run_cma_es {σ : Type} (opt : Optimizer σ) (sim : SimCfg)
    (initOpt : List ℚ → ℚ → Option σ) (mode : String) (gens : Int) (sigma_val : ℚ) :
    RunOutcome :=
  let log0 : List (List Cell) := [(csv_header sim.NUM_ACTUATORS).map Cell.str]
  match initOpt (initialMean sim) sigma_val with
  | none => ⟨log0, [], false⟩
  | some s0 => genFold opt sim mode (List.range gens.toNat) s0 log0 []

/-- Modelled from the spec: the optimizer library (`cmaes.CMA`, not part of
this repository's sources) fails at construction for non-positive sigma
("optimizer initialization failures (e.g., non-positive sigma)"). An
optimizer constructor family satisfies this when every construction with
`sigma ≤ 0` fails. -/
def RejectsNonPositiveSigma {σ : Type} (initOpt : List ℚ → ℚ → Option σ) : Prop :=
  ∀ mean s, s ≤ 0 → initOpt mean s = none

/-- Does a recorded event pass `m` as the mode argument? Trivially true for
events that carry no mode. -/
def Event.usesMode (m : String) : Event → Bool
  | simRun _ _ m' _ => m' == m
  | _ => true

/-- The run label carried by a simulator-call event, if any. -/
def Event.labelOf : Event → Option String
  | simRun _ _ _ l => some l
  | _ => none

/-- Value of a decimal digit character. -/
def digitVal (c : Char) : Nat := c.toNat - 48

/-- Numeric value of a big-endian digit string. -/
def digitsToNat (l : List Char) : Nat :=
  l.foldl (fun acc c => 10 * acc + digitVal c) 0

/-- Python's `int(token)` as used by argparse `type=int` on plain CLI
tokens: an optional sign followed by one or more decimal digits; anything
else (for example `"2.5"`) raises, modelled as `none`. -/
def pyParseInt (s : String) : Option Int :=
  match s.data with
  | [] => none
  | c :: rest =>
    if c = '-' then
      if !rest.isEmpty && rest.all Char.isDigit then some (-(digitsToNat rest : Int)) else none
    else if c = '+' then
      if !rest.isEmpty && rest.all Char.isDigit then some ((digitsToNat rest : Int)) else none
    else if (c :: rest).all Char.isDigit then some ((digitsToNat (c :: rest) : Int)) else none

/-- The three CLI options of the script (`--mode`, `--gens`, `--sigma`). -/
structure Args where
  mode : String
  gens : Int
  sigma : Int
deriving DecidableEq, Repr

/-- The argparse configuration of `__main__`: `--mode` defaults to `"h"`
(a bare string), `--gens` to `100` and `--sigma` to `2`, the latter two
declared with `type=int`. -/
def defaultArgs : Args := ⟨"h", 100, 2⟩

/-- Option-by-option processing of the argv list against the three
declared options; an unrecognized option or a `type=int` conversion
failure makes argparse exit with an error, modelled as `none`. -/
def parseArgsFrom : List String → Args → Option Args
  | [], a => some a
  | "--mode" :: v :: rest, a => parseArgsFrom rest ⟨v, a.gens, a.sigma⟩
  | "--gens" :: v :: rest, a =>
    match pyParseInt v with
    | none => none
    | some n => parseArgsFrom rest ⟨a.mode, n, a.sigma⟩
  | "--sigma" :: v :: rest, a =>
    match pyParseInt v with
    | none => none
    | some n => parseArgsFrom rest ⟨a.mode, a.gens, n⟩
  | _, _ => none

/-- `parser.parse_args()`: the argv list interpreted against the declared
options, starting from the defaults. -/
def parseArgs (argv : List String) : Option Args :=
  parseArgsFrom argv defaultArgs

/-- The `__main__` block: parse the CLI arguments and call
`run_cma_es(args.mode, args.gens, args.sigma)`; `none` when argument
parsing fails. -/
def main_run {σ : Type} (opt : Optimizer σ) (sim : SimCfg)
    (initOpt : List ℚ → ℚ → Option σ) (argv : List String) : Option RunOutcome :=
  match parseArgs argv with
  | none => none
  | some a => some (run_cma_es opt sim initOpt a.mode a.gens (a.sigma : ℚ))

/-- A concrete two-actuator simulator used to evaluate the theorems on
closed inputs: fitness is the first candidate component. -/
def demoSim : SimCfg :=
  ⟨2, 5, 1, 2, 3, fun _ x _ _ => x.headD 0⟩

/-- A concrete optimizer over counter states: population size 2, each draw
returns six copies of the counter and increments it, reports are ignored. -/
def demoOpt : Optimizer Nat :=
  ⟨fun _ => 2, fun s => (List.replicate 6 (s : ℚ), s + 1), fun s _ => s⟩

/-- A concrete optimizer constructor that fails exactly on `sigma ≤ 0`. -/
def demoInit : List ℚ → ℚ → Option Nat :=
  fun _ s => if s ≤ 0 then none else some 0

/-! ### Decimal rendering: supporting lemmas -/

theorem digitVal_digitChar : ∀ d < 10, digitVal (Nat.digitChar d) = d := by decide

theorem digitChar_ne_underscore : ∀ d < 10, Nat.digitChar d ≠ '_' := by decide

theorem natDigitsRev_mem : ∀ (fuel n : Nat), ∀ c ∈ natDigitsRev fuel n,
    ∃ d, d < 10 ∧ c = Nat.digitChar d := by
  intro fuel
  induction fuel with
  | zero => intro n c hc; simp [natDigitsRev] at hc
  | succ fuel ih =>
    intro n c hc
    by_cases hn : n = 0
    · simp [natDigitsRev, hn] at hc
    · simp only [natDigitsRev, if_neg hn, List.mem_cons] at hc
      rcases hc with hc | hc
      · exact ⟨n % 10, Nat.mod_lt _ (by norm_num), hc⟩
      · exact ih _ c hc

theorem natDigitsRev_val : ∀ (fuel n : Nat), n ≤ fuel →
    (natDigitsRev fuel n).foldr (fun c acc => digitVal c + 10 * acc) 0 = n := by
  intro fuel
  induction fuel with
  | zero => intro n hn; interval_cases n; simp [natDigitsRev]
  | succ fuel ih =>
    intro n hn
    by_cases hn0 : n = 0
    · simp [natDigitsRev, hn0]
    · have hdiv : n / 10 ≤ fuel := by
        have : n / 10 < n := Nat.div_lt_self (Nat.pos_of_ne_zero hn0) (by norm_num)
        omega
      simp only [natDigitsRev, if_neg hn0, List.foldr_cons, ih _ hdiv]
      rw [digitVal_digitChar _ (Nat.mod_lt _ (by norm_num))]
      exact Nat.mod_add_div n 10

theorem pyDigits_reverse_val (n : Nat) :
    (pyDigits n).reverse.foldr (fun c acc => digitVal c + 10 * acc) 0 = n := by
  by_cases hn : n = 0
  · simp [pyDigits, hn]; decide
  · simp only [pyDigits, if_neg hn, List.reverse_reverse]
    exact natDigitsRev_val n n le_rfl

theorem pyDigits_inj {n m : Nat} (h : pyDigits n = pyDigits m) : n = m := by
  have := pyDigits_reverse_val n
  rw [h, pyDigits_reverse_val] at this
  omega

theorem underscore_notMem_pyDigits (n : Nat) : '_' ∉ pyDigits n := by
  by_cases hn : n = 0
  · simp [pyDigits, hn]
  · simp only [pyDigits, if_neg hn, List.mem_reverse]
    intro hmem
    rcases natDigitsRev_mem n n _ hmem with ⟨d, hd, hc⟩
    exact digitChar_ne_underscore d hd hc.symm

theorem append_underscore_inj :
    ∀ (a c b d : List Char), '_' ∉ a → '_' ∉ c →
      a ++ '_' :: b = c ++ '_' :: d → a = c ∧ b = d := by
  intro a
  induction a with
  | nil =>
    intro c b d _ hc h
    cases c with
    | nil => simpa using h
    | cons y c' =>
      simp only [List.nil_append, List.cons_append, List.cons.injEq] at h
      exact absurd (h.1 ▸ List.mem_cons_self y c') hc
  | cons x a' ih =>
    intro c b d ha hc h
    cases c with
    | nil =>
      simp only [List.cons_append, List.nil_append, List.cons.injEq] at h
      exact absurd (h.1 ▸ List.mem_cons_self x a') ha
    | cons y c' =>
      simp only [List.cons_append, List.cons.injEq] at h
      have ha' : '_' ∉ a' := fun hm => ha (List.mem_cons_of_mem x hm)
      have hc' : '_' ∉ c' := fun hm => hc (List.mem_cons_of_mem y hm)
      rcases ih c' b d ha' hc' h.2 with ⟨h1, h2⟩
      exact ⟨by rw [h.1, h1], h2⟩

theorem mkLabel_data (g i : Nat) : (mkLabel g i).data = pyDigits g ++ '_' :: pyDigits i := by
  simp [mkLabel, String.data_append, pyStr]

theorem mkLabel_inj {g i h k : Nat} (e : mkLabel g i = mkLabel h k) : g = h ∧ i = k := by
  have hdata : pyDigits g ++ '_' :: pyDigits i = pyDigits h ++ '_' :: pyDigits k := by
    rw [← mkLabel_data, ← mkLabel_data, e]
  rcases append_underscore_inj _ _ _ _ (underscore_notMem_pyDigits g)
    (underscore_notMem_pyDigits h) hdata with ⟨h1, h2⟩
  exact ⟨pyDigits_inj h1, pyDigits_inj h2⟩

/-! ### The inner per-generation loop: supporting lemmas -/

theorem askAll_length {σ : Type} (opt : Optimizer σ) (sim : SimCfg) (mode : String) (g : Nat) :
    ∀ (idxs : List Nat) (s : σ), (askAll opt sim mode g idxs s).1.length = idxs.length := by
  intro idxs
  induction idxs with
  | nil => intro s; rfl
  | cons i rest ih => intro s; simp [askAll, ih]

theorem askAll_events {σ : Type} (opt : Optimizer σ) (sim : SimCfg) (mode : String) (g : Nat) :
    ∀ (idxs : List Nat) (s : σ),
      (askAll opt sim mode g idxs s).2.1 =
        (idxs.zip (askAll opt sim mode g idxs s).1).flatMap
          (fun p => [Event.ask, Event.simRun sim.NUM_ITERS p.2.1 mode (mkLabel g p.1)]) := by
  intro idxs
  induction idxs with
  | nil => intro s; rfl
  | cons i rest ih => intro s; simp [askAll, ih]

theorem askAll_cand_len {σ : Type} (opt : Optimizer σ) (sim : SimCfg) (mode : String) (g : Nat)
    (L : Nat) (hask : ∀ t, (opt.ask t).1.length = L) :
    ∀ (idxs : List Nat) (s : σ), ∀ p ∈ (askAll opt sim mode g idxs s).1, p.1.length = L := by
  intro idxs
  induction idxs with
  | nil => intro s p hp; simp [askAll] at hp
  | cons i rest ih =>
    intro s p hp
    simp only [askAll, List.mem_cons] at hp
    rcases hp with hp | hp
    · rw [hp]; exact hask s
    · exact ih _ p hp

theorem askAll_labels {σ : Type} (opt : Optimizer σ) (sim : SimCfg) (mode : String) (g : Nat) :
    ∀ (idxs : List Nat) (s : σ),
      (askAll opt sim mode g idxs s).2.1.filterMap Event.labelOf = idxs.map (mkLabel g) := by
  intro idxs
  induction idxs with
  | nil => intro s; rfl
  | cons i rest ih => intro s; simp [askAll, Event.labelOf, ih]

theorem askAll_modes {σ : Type} (opt : Optimizer σ) (sim : SimCfg) (mode : String) (g : Nat) :
    ∀ (idxs : List Nat) (s : σ), ∀ ev ∈ (askAll opt sim mode g idxs s).2.1,
      ev.usesMode mode = true := by
  intro idxs
  induction idxs with
  | nil => intro s ev hev; simp [askAll] at hev
  | cons i rest ih =>
    intro s ev hev
    simp only [askAll, List.mem_cons] at hev
    rcases hev with hev | hev | hev
    · rw [hev]; rfl
    · rw [hev]; simp [Event.usesMode]
    · exact ih _ ev hev

theorem askAll_mode_indep {σ : Type} (opt : Optimizer σ) (sim : SimCfg) (g : Nat)
    (m1 m2 c : String) (hmode : ∀ i x m m' l, sim.run i x m l = sim.run i x m' l) :
    ∀ (idxs : List Nat) (s : σ),
      (askAll opt sim m1 g idxs s).1 = (askAll opt sim m2 g idxs s).1 ∧
      (askAll opt sim m1 g idxs s).2.2 = (askAll opt sim m2 g idxs s).2.2 ∧
      (askAll opt sim m1 g idxs s).2.1.map (Event.setMode c) =
        (askAll opt sim m2 g idxs s).2.1.map (Event.setMode c) := by
  intro idxs
  induction idxs with
  | nil => intro s; exact ⟨rfl, rfl, rfl⟩
  | cons i rest ih =>
    intro s
    rcases ih (opt.ask s).2 with ⟨h1, h2, h3⟩
    refine ⟨?_, by simpa [askAll] using h2, ?_⟩
    · simp only [askAll, List.cons.injEq]
      exact ⟨by rw [hmode _ _ m1 m2 _], h1⟩
    · simp [askAll, Event.setMode, h3]

/-! ### The generation body and the outer loop: supporting lemmas -/

theorem genStep_some {σ : Type} (opt : Optimizer σ) (sim : SimCfg) (mode : String) (g : Nat)
    (s : σ) (x0 : List ℚ) (f0 : ℚ) (tl : List (List ℚ × ℚ)) (evs : List Event) (s1 : σ)
    (h : askAll opt sim mode g (List.range (opt.popSize s)) s = ((x0, f0) :: tl, evs, s1)) :
    genStep opt sim mode g s =
      (evs ++ [Event.tell ((x0, f0) :: tl)],
        some ([Cell.num (g : ℚ), Cell.num f0] ++ x0.map Cell.num,
          opt.tell s1 ((x0, f0) :: tl))) := by
  simp only [genStep]
  rw [h]

theorem genStep_none {σ : Type} (opt : Optimizer σ) (sim : SimCfg) (mode : String) (g : Nat)
    (s : σ) (evs : List Event) (s1 : σ)
    (h : askAll opt sim mode g (List.range (opt.popSize s)) s = ([], evs, s1)) :
    genStep opt sim mode g s = (evs ++ [Event.tell []], none) := by
  simp only [genStep]
  rw [h]

theorem genFold_cons_some {σ : Type} (opt : Optimizer σ) (sim : SimCfg) (mode : String)
    (g : Nat) (rest : List Nat) (s : σ) (log : List (List Cell)) (tr : List Event)
    (evs : List Event) (row : List Cell) (s2 : σ)
    (h : genStep opt sim mode g s = (evs, some (row, s2))) :
    genFold opt sim mode (g :: rest) s log tr =
      genFold opt sim mode rest s2 (log ++ [row]) (tr ++ evs) := by
  simp only [genFold]
  rw [h]

theorem genFold_cons_none {σ : Type} (opt : Optimizer σ) (sim : SimCfg) (mode : String)
    (g : Nat) (rest : List Nat) (s : σ) (log : List (List Cell)) (tr : List Event)
    (evs : List Event)
    (h : genStep opt sim mode g s = (evs, none)) :
    genFold opt sim mode (g :: rest) s log tr = ⟨log, tr ++ evs, false⟩ := by
  simp only [genFold]
  rw [h]

theorem genFold_ok_length {σ : Type} (opt : Optimizer σ) (sim : SimCfg) (mode : String)
    (hpop : ∀ t : σ, 0 < opt.popSize t) :
    ∀ (idxs : List Nat) (s : σ) (log : List (List Cell)) (tr : List Event),
      (genFold opt sim mode idxs s log tr).ok = true ∧
      (genFold opt sim mode idxs s log tr).log.length = log.length + idxs.length := by
  intro idxs
  induction idxs with
  | nil => intro s log tr; exact ⟨rfl, by simp [genFold]⟩
  | cons g rest ih =>
    intro s log tr
    rcases hsols : askAll opt sim mode g (List.range (opt.popSize s)) s with ⟨sols, evs, s1⟩
    cases sols with
    | nil =>
      have hlen := askAll_length opt sim mode g (List.range (opt.popSize s)) s
      rw [hsols] at hlen
      simp at hlen
      exfalso
      have := hpop s
      omega
    | cons hd tl =>
      rw [genFold_cons_some opt sim mode g rest s log tr _ _ _
        (genStep_some opt sim mode g s hd.1 hd.2 tl evs s1 (by rw [← hsols]))]
      rcases ih (opt.tell s1 (hd :: tl)) (log ++ [([Cell.num (g : ℚ), Cell.num hd.2] ++
        hd.1.map Cell.num)]) (tr ++ (evs ++ [Event.tell (hd :: tl)])) with ⟨hok, hlen⟩
      refine ⟨hok, ?_⟩
      rw [hlen]
      simp
      omega

theorem genFold_rows {σ : Type} (opt : Optimizer σ) (sim : SimCfg) (mode : String) (A : Nat)
    (hask : ∀ t : σ, (opt.ask t).1.length = 3 * A) :
    ∀ (idxs : List Nat) (s : σ) (log : List (List Cell)) (tr : List Event),
      (∀ row ∈ log, row.length = 2 + 3 * A) →
      ∀ row ∈ (genFold opt sim mode idxs s log tr).log, row.length = 2 + 3 * A := by
  intro idxs
  induction idxs with
  | nil => intro s log tr hlog row hrow; exact hlog row hrow
  | cons g rest ih =>
    intro s log tr hlog row hrow
    rcases hsols : askAll opt sim mode g (List.range (opt.popSize s)) s with ⟨sols, evs, s1⟩
    cases sols with
    | nil =>
      rw [genFold_cons_none opt sim mode g rest s log tr _
        (genStep_none opt sim mode g s evs s1 (by rw [← hsols]))] at hrow
      exact hlog row hrow
    | cons hd tl =>
      rw [genFold_cons_some opt sim mode g rest s log tr _ _ _
        (genStep_some opt sim mode g s hd.1 hd.2 tl evs s1 (by rw [← hsols]))] at hrow
      refine ih _ _ _ ?_ row hrow
      intro r hr
      rcases List.mem_append.1 hr with hr | hr
      · exact hlog r hr
      · have hx : hd.1.length = 3 * A := by
          refine askAll_cand_len opt sim mode g (3 * A) hask
            (List.range (opt.popSize s)) s hd ?_
          rw [hsols]
          exact List.mem_cons_self hd tl
        simp at hr
        rw [hr]
        simp [hx]
        omega

theorem genFold_modes {σ : Type} (opt : Optimizer σ) (sim : SimCfg) (mode : String) :
    ∀ (idxs : List Nat) (s : σ) (log : List (List Cell)) (tr : List Event),
      (∀ ev ∈ tr, ev.usesMode mode = true) →
      ∀ ev ∈ (genFold opt sim mode idxs s log tr).trace, ev.usesMode mode = true := by
  intro idxs
  induction idxs with
  | nil => intro s log tr htr ev hev; exact htr ev hev
  | cons g rest ih =>
    intro s log tr htr ev hev
    have hblock : ∀ sols evs s1,
        askAll opt sim mode g (List.range (opt.popSize s)) s = (sols, evs, s1) →
        ∀ e ∈ tr ++ (evs ++ [Event.tell sols]), Event.usesMode mode e = true := by
      intro sols evs s1 hs e he
      rcases List.mem_append.1 he with he | he
      · exact htr e he
      · rcases List.mem_append.1 he with he | he
        · refine askAll_modes opt sim mode g (List.range (opt.popSize s)) s e ?_
          rw [hs]
          exact he
        · simp at he
          rw [he]
          rfl
    rcases hsols : askAll opt sim mode g (List.range (opt.popSize s)) s with ⟨sols, evs, s1⟩
    cases sols with
    | nil =>
      rw [genFold_cons_none opt sim mode g rest s log tr _
        (genStep_none opt sim mode g s evs s1 (by rw [← hsols]))] at hev
      exact hblock [] evs s1 (by rw [← hsols]) ev (by simpa using hev)
    | cons hd tl =>
      rw [genFold_cons_some opt sim mode g rest s log tr _ _ _
        (genStep_some opt sim mode g s hd.1 hd.2 tl evs s1 (by rw [← hsols]))] at hev
      exact ih _ _ _ (hblock (hd :: tl) evs s1 (by rw [← hsols])) ev hev

theorem genFold_mode_indep {σ : Type} (opt : Optimizer σ) (sim : SimCfg) (m1 m2 c : String)
    (hmode : ∀ i x m m' l, sim.run i x m l = sim.run i x m' l) :
    ∀ (idxs : List Nat) (s : σ) (log : List (List Cell)) (tr1 tr2 : List Event),
      tr1.map (Event.setMode c) = tr2.map (Event.setMode c) →
      (genFold opt sim m1 idxs s log tr1).log = (genFold opt sim m2 idxs s log tr2).log ∧
      (genFold opt sim m1 idxs s log tr1).ok = (genFold opt sim m2 idxs s log tr2).ok ∧
      (genFold opt sim m1 idxs s log tr1).trace.map (Event.setMode c) =
        (genFold opt sim m2 idxs s log tr2).trace.map (Event.setMode c) := by
  intro idxs
  induction idxs with
  | nil => intro s log tr1 tr2 htr; exact ⟨rfl, rfl, htr⟩
  | cons g rest ih =>
    intro s log tr1 tr2 htr
    rcases askAll_mode_indep opt sim g m1 m2 c hmode (List.range (opt.popSize s)) s
      with ⟨hsols, hstate, hevs⟩
    rcases h1 : askAll opt sim m1 g (List.range (opt.popSize s)) s with ⟨sols1, evs1, s11⟩
    rcases h2 : askAll opt sim m2 g (List.range (opt.popSize s)) s with ⟨sols2, evs2, s21⟩
    rw [h1, h2] at hsols hstate hevs
    simp only at hsols hstate hevs
    subst hsols
    subst hstate
    have hblocks : (tr1 ++ (evs1 ++ [Event.tell sols1])).map (Event.setMode c) =
        (tr2 ++ (evs2 ++ [Event.tell sols1])).map (Event.setMode c) := by
      simp only [List.map_append, htr, hevs]
    cases sols1 with
    | nil =>
      rw [genFold_cons_none opt sim m1 g rest s log tr1 _
        (genStep_none opt sim m1 g s evs1 s11 (by rw [← h1]))]
      rw [genFold_cons_none opt sim m2 g rest s log tr2 _
        (genStep_none opt sim m2 g s evs2 s11 (by rw [← h2]))]
      exact ⟨rfl, rfl, by simpa using hblocks⟩
    | cons hd tl =>
      rw [genFold_cons_some opt sim m1 g rest s log tr1 _ _ _
        (genStep_some opt sim m1 g s hd.1 hd.2 tl evs1 s11 (by rw [← h1]))]
      rw [genFold_cons_some opt sim m2 g rest s log tr2 _ _ _
        (genStep_some opt sim m2 g s hd.1 hd.2 tl evs2 s11 (by rw [← h2]))]
      exact ih _ _ _ _ hblocks

/-! ### The full run: supporting lemmas -/

theorem run_cma_es_of_init_none {σ : Type} (opt : Optimizer σ) (sim : SimCfg)
    (initOpt : List ℚ → ℚ → Option σ) (mode : String) (gens : Int) (sigma_val : ℚ)
    (h : initOpt (initialMean sim) sigma_val = none) :
    run_cma_es opt sim initOpt mode gens sigma_val =
      ⟨[(csv_header sim.NUM_ACTUATORS).map Cell.str], [], false⟩ := by
  simp only [run_cma_es]
  rw [h]

theorem run_cma_es_of_init_some {σ : Type} (opt : Optimizer σ) (sim : SimCfg)
    (initOpt : List ℚ → ℚ → Option σ) (mode : String) (gens : Int) (sigma_val : ℚ) (s0 : σ)
    (h : initOpt (initialMean sim) sigma_val = some s0) :
    run_cma_es opt sim initOpt mode gens sigma_val =
      genFold opt sim mode (List.range gens.toNat) s0
        [(csv_header sim.NUM_ACTUATORS).map Cell.str] [] := by
  simp only [run_cma_es]
  rw [h]

theorem csv_header_length (n : Nat) : (csv_header n).length = 2 + 3 * n := by
  induction n with
  | zero => rfl
  | succ k ih =>
    simp only [csv_header, List.range_succ, List.flatMap_append, List.length_append] at ih ⊢
    simp only [List.flatMap_cons, List.flatMap_nil] at ih ⊢
    simp at ih ⊢
    omega

theorem flatten_replicate_triple_getD (f a p : ℚ) :
    ∀ (n j : Nat), j < 3 * n →
      (List.replicate n [f, a, p]).flatten.getD j 0 = [f, a, p].getD (j % 3) 0 := by
  intro n
  induction n with
  | zero => intro j hj; omega
  | succ k ih =>
    intro j hj
    rw [List.replicate_succ, List.flatten_cons]
    by_cases h3 : j < 3
    · interval_cases j <;> rfl
    · have hlen : ([f, a, p] : List ℚ).length ≤ j := by simp; omega
      rw [List.getD_append_right _ _ _ _ hlen]
      have hmod : j % 3 = (j - 3) % 3 := by omega
      have hlen3 : ([f, a, p] : List ℚ).length = 3 := by simp
      rw [hlen3, hmod]
      exact ih (j - 3) (by omega)

/-! ### The claims -/

/-- C1: for every completed generation, the row appended to the log is built
from the first `(candidate, fitness)` pair in that generation's collection
order: it is `[generation, fitness of the first pair]` followed by the
first candidate's components in order, independently of the remaining
pairs' fitness values — no re-sorting or max-fitness search takes place. -/
theorem first_pair_becomes_log_row {σ : Type} (opt : Optimizer σ) (sim : SimCfg)
    (mode : String) (g : Nat) (s : σ) (x0 : List ℚ) (f0 : ℚ) (tl : List (List ℚ × ℚ))
    (evs : List Event) (s1 : σ)
    (h : askAll opt sim mode g (List.range (opt.popSize s)) s = ((x0, f0) :: tl, evs, s1)) :
    ∀ (rest : List Nat) (log : List (List Cell)) (tr : List Event),
      genFold opt sim mode (g :: rest) s log tr =
        genFold opt sim mode rest (opt.tell s1 ((x0, f0) :: tl))
          (log ++ [[Cell.num (g : ℚ), Cell.num f0] ++ x0.map Cell.num])
          (tr ++ (evs ++ [Event.tell ((x0, f0) :: tl)])) := by
  intro rest log tr
  exact genFold_cons_some opt sim mode g rest s log tr _ _ _
    (genStep_some opt sim mode g s x0 f0 tl evs s1 h)

theorem first_pair_becomes_log_row_witness :
    genFold demoOpt demoSim "h" [0] 0 [] [] =
      genFold demoOpt demoSim "h" []
        (demoOpt.tell 2 [(List.replicate 6 0, 0), (List.replicate 6 1, 1)])
        ([] ++ [[Cell.num 0, Cell.num 0] ++ (List.replicate 6 (0 : ℚ)).map Cell.num])
        ([] ++ ([Event.ask, Event.simRun 5 (List.replicate 6 0) "h" "0_0",
                 Event.ask, Event.simRun 5 (List.replicate 6 1) "h" "0_1"] ++
                [Event.tell [(List.replicate 6 0, 0), (List.replicate 6 1, 1)]])) :=
  first_pair_becomes_log_row demoOpt demoSim "h" 0 0 (List.replicate 6 0) 0
    [(List.replicate 6 1, 1)]
    [Event.ask, Event.simRun 5 (List.replicate 6 0) "h" "0_0",
     Event.ask, Event.simRun 5 (List.replicate 6 1) "h" "0_1"] 2 (by decide) [] [] []

/-- C4: when the optimizer constructor rejects every non-positive sigma (as
the external CMA library does) and `sigma ≤ 0`, the run terminates
abnormally right after construction: the log holds exactly the header row
(written before the constructor runs) and no collaborator call is made. -/
theorem nonpositive_sigma_header_only {σ : Type} (opt : Optimizer σ) (sim : SimCfg)
    (initOpt : List ℚ → ℚ → Option σ) (mode : String) (gens : Int) (sigma_val : ℚ)
    (hrej : RejectsNonPositiveSigma initOpt) (hs : sigma_val ≤ 0) :
    run_cma_es opt sim initOpt mode gens sigma_val =
      ⟨[(csv_header sim.NUM_ACTUATORS).map Cell.str], [], false⟩ :=
  run_cma_es_of_init_none opt sim initOpt mode gens sigma_val (hrej _ _ hs)

theorem nonpositive_sigma_header_only_witness :
    run_cma_es demoOpt demoSim demoInit "h" 5 0 =
      ⟨[(csv_header demoSim.NUM_ACTUATORS).map Cell.str], [], false⟩ :=
  nonpositive_sigma_header_only demoOpt demoSim demoInit "h" 5 0
    (fun _ s hs => by simp [demoInit, hs]) le_rfl

/-- C9: for every negative `generations` the loop body never runs: the run
completes normally (`ok = true`), the log holds exactly the header row and
no optimizer or simulator interaction happens (empty trace) — nothing
enforces the spec's non-negativity precondition. -/
theorem negative_generations_normal_exit {σ : Type} (opt : Optimizer σ) (sim : SimCfg)
    (initOpt : List ℚ → ℚ → Option σ) (mode : String) (gens : Int) (sigma_val : ℚ) (s0 : σ)
    (hneg : gens < 0) (hinit : initOpt (initialMean sim) sigma_val = some s0) :
    run_cma_es opt sim initOpt mode gens sigma_val =
      ⟨[(csv_header sim.NUM_ACTUATORS).map Cell.str], [], true⟩ := by
  rw [run_cma_es_of_init_some opt sim initOpt mode gens sigma_val s0 hinit]
  rw [Int.toNat_of_nonpos (le_of_lt hneg)]
  rfl

theorem negative_generations_normal_exit_witness :
    run_cma_es demoOpt demoSim demoInit "h" (-1) 1 =
      ⟨[(csv_header demoSim.NUM_ACTUATORS).map Cell.str], [], true⟩ :=
  negative_generations_normal_exit demoOpt demoSim demoInit "h" (-1) 1 0
    (by norm_num) (by decide)

/-- C2: when the optimizer constructs successfully and every generation's
population is nonempty (so every call returns normally), the run completes
normally with exactly `generations + 1` log rows — the header plus one data
row per completed generation; in particular for `generations = 0` the log
is exactly the header row. -/
theorem log_row_count {σ : Type} (opt : Optimizer σ) (sim : SimCfg)
    (initOpt : List ℚ → ℚ → Option σ) (mode : String) (gens : Int) (sigma_val : ℚ) (s0 : σ)
    (hinit : initOpt (initialMean sim) sigma_val = some s0)
    (hpop : ∀ t : σ, 0 < opt.popSize t) :
    (run_cma_es opt sim initOpt mode gens sigma_val).log.length = gens.toNat + 1 ∧
    (run_cma_es opt sim initOpt mode gens sigma_val).ok = true ∧
    (gens = 0 → (run_cma_es opt sim initOpt mode gens sigma_val).log =
      [(csv_header sim.NUM_ACTUATORS).map Cell.str]) := by
  rw [run_cma_es_of_init_some opt sim initOpt mode gens sigma_val s0 hinit]
  rcases genFold_ok_length opt sim mode hpop (List.range gens.toNat) s0
    [(csv_header sim.NUM_ACTUATORS).map Cell.str] [] with ⟨hok, hlen⟩
  refine ⟨?_, hok, ?_⟩
  · rw [hlen]
    simp
    omega
  · intro h0
    subst h0
    rfl

theorem log_row_count_witness :
    (run_cma_es demoOpt demoSim demoInit "h" 2 1).log.length = (2 : Int).toNat + 1 ∧
    (run_cma_es demoOpt demoSim demoInit "h" 2 1).ok = true ∧
    ((2 : Int) = 0 → (run_cma_es demoOpt demoSim demoInit "h" 2 1).log =
      [(csv_header demoSim.NUM_ACTUATORS).map Cell.str]) :=
  log_row_count demoOpt demoSim demoInit "h" 2 1 0 (by decide) (fun _ => Nat.succ_pos 1)

/-- C3: under the layout assumption that every candidate the optimizer
draws has length `3 × NUM_ACTUATORS`, every row of the log — the header
written at run start and every appended data row — has column count
`2 + 3 × NUM_ACTUATORS`. -/
theorem log_column_count {σ : Type} (opt : Optimizer σ) (sim : SimCfg)
    (initOpt : List ℚ → ℚ → Option σ) (mode : String) (gens : Int) (sigma_val : ℚ)
    (hask : ∀ t : σ, (opt.ask t).1.length = 3 * sim.NUM_ACTUATORS) :
    ∀ row ∈ (run_cma_es opt sim initOpt mode gens sigma_val).log,
      row.length = 2 + 3 * sim.NUM_ACTUATORS := by
  intro row hrow
  cases hinit : initOpt (initialMean sim) sigma_val with
  | none =>
    rw [run_cma_es_of_init_none opt sim initOpt mode gens sigma_val hinit] at hrow
    simp at hrow
    rw [hrow]
    simp [csv_header_length]
  | some s0 =>
    rw [run_cma_es_of_init_some opt sim initOpt mode gens sigma_val s0 hinit] at hrow
    refine genFold_rows opt sim mode sim.NUM_ACTUATORS hask _ _ _ _ ?_ row hrow
    intro r hr
    simp at hr
    rw [hr]
    simp [csv_header_length]

theorem log_column_count_witness :
    ((run_cma_es demoOpt demoSim demoInit "h" 1 1).log.getD 1 []).length =
      2 + 3 * demoSim.NUM_ACTUATORS :=
  log_column_count demoOpt demoSim demoInit "h" 1 1 (fun _ => rfl)
    ((run_cma_es demoOpt demoSim demoInit "h" 1 1).log.getD 1 []) (by decide)

/-- C5: in each generation the driver draws exactly `population_size`
candidates (the size read from the optimizer at the start of that
generation), pairing each draw with one simulator evaluation; afterwards
it reports exactly the collected pairs — each one once, in collection
order — in a single batch `tell`, and only then does the next generation's
processing (hence its first draw) begin. -/
theorem generation_ask_tell_protocol {σ : Type} (opt : Optimizer σ) (sim : SimCfg)
    (mode : String) (g : Nat) (s : σ) (sols : List (List ℚ × ℚ)) (evs : List Event) (s1 : σ)
    (h : askAll opt sim mode g (List.range (opt.popSize s)) s = (sols, evs, s1)) :
    sols.length = opt.popSize s ∧
    evs = ((List.range (opt.popSize s)).zip sols).flatMap
      (fun p => [Event.ask, Event.simRun sim.NUM_ITERS p.2.1 mode (mkLabel g p.1)]) ∧
    (genStep opt sim mode g s).1 = evs ++ [Event.tell sols] ∧
    (∀ (rest : List Nat) (log : List (List Cell)) (tr : List Event) (row : List Cell) (s2 : σ),
      (genStep opt sim mode g s).2 = some (row, s2) →
      genFold opt sim mode (g :: rest) s log tr =
        genFold opt sim mode rest s2 (log ++ [row]) (tr ++ (evs ++ [Event.tell sols]))) := by
  have hlen : sols.length = opt.popSize s := by
    have := askAll_length opt sim mode g (List.range (opt.popSize s)) s
    rw [h] at this
    simpa using this
  have hevs : evs = ((List.range (opt.popSize s)).zip sols).flatMap
      (fun p => [Event.ask, Event.simRun sim.NUM_ITERS p.2.1 mode (mkLabel g p.1)]) := by
    have := askAll_events opt sim mode g (List.range (opt.popSize s)) s
    rw [h] at this
    simpa using this
  have htrace : (genStep opt sim mode g s).1 = evs ++ [Event.tell sols] := by
    cases sols with
    | nil => rw [genStep_none opt sim mode g s evs s1 h]
    | cons hd tl =>
      rw [genStep_some opt sim mode g s hd.1 hd.2 tl evs s1 (by rw [← h])]
  refine ⟨hlen, hevs, htrace, ?_⟩
  intro rest log tr row s2 h2
  refine genFold_cons_some opt sim mode g rest s log tr _ row s2 ?_
  calc genStep opt sim mode g s
      = ((genStep opt sim mode g s).1, (genStep opt sim mode g s).2) := rfl
    _ = (evs ++ [Event.tell sols], some (row, s2)) := by rw [htrace, h2]

theorem generation_ask_tell_protocol_witness :
    genFold demoOpt demoSim "h" [1] 0 [] [] =
      genFold demoOpt demoSim "h" []
        (demoOpt.tell 2 [(List.replicate 6 0, 0), (List.replicate 6 1, 1)])
        ([] ++ [[Cell.num 1, Cell.num 0] ++ (List.replicate 6 (0 : ℚ)).map Cell.num])
        ([] ++ ([Event.ask, Event.simRun 5 (List.replicate 6 0) "h" "1_0",
                 Event.ask, Event.simRun 5 (List.replicate 6 1) "h" "1_1"] ++
                [Event.tell [(List.replicate 6 0, 0), (List.replicate 6 1, 1)]])) :=
  (generation_ask_tell_protocol demoOpt demoSim "h" 1 0
    [(List.replicate 6 0, 0), (List.replicate 6 1, 1)]
    [Event.ask, Event.simRun 5 (List.replicate 6 0) "h" "1_0",
     Event.ask, Event.simRun 5 (List.replicate 6 1) "h" "1_1"] 2
    (by decide)).2.2.2 [] [] []
    ([Cell.num 1, Cell.num 0] ++ (List.replicate 6 (0 : ℚ)).map Cell.num)
    (demoOpt.tell 2 [(List.replicate 6 0, 0), (List.replicate 6 1, 1)]) (by decide)

/-- C6: the driver neither validates nor interprets the mode string: every
simulator invocation recorded in the trace carries exactly the mode the
driver received (whatever string it is), and when the simulator itself
ignores the mode argument, two runs differing only in the mode produce
the same log, the same termination status, and the same trace up to the
mode field of the simulator-call events — no other driver behavior
depends on the mode. -/
theorem mode_forwarded_verbatim {σ : Type} (opt : Optimizer σ) (sim : SimCfg)
    (initOpt : List ℚ → ℚ → Option σ) (mode : String) (gens : Int) (sigma_val : ℚ) :
    (∀ ev ∈ (run_cma_es opt sim initOpt mode gens sigma_val).trace,
      ev.usesMode mode = true) ∧
    (∀ mode' : String, (∀ i x m m' l, sim.run i x m l = sim.run i x m' l) →
      (run_cma_es opt sim initOpt mode gens sigma_val).log =
        (run_cma_es opt sim initOpt mode' gens sigma_val).log ∧
      (run_cma_es opt sim initOpt mode gens sigma_val).ok =
        (run_cma_es opt sim initOpt mode' gens sigma_val).ok ∧
      (run_cma_es opt sim initOpt mode gens sigma_val).trace.map (Event.setMode "") =
        (run_cma_es opt sim initOpt mode' gens sigma_val).trace.map (Event.setMode "")) := by
  constructor
  · intro ev hev
    cases hinit : initOpt (initialMean sim) sigma_val with
    | none =>
      rw [run_cma_es_of_init_none opt sim initOpt mode gens sigma_val hinit] at hev
      simp at hev
    | some s0 =>
      rw [run_cma_es_of_init_some opt sim initOpt mode gens sigma_val s0 hinit] at hev
      exact genFold_modes opt sim mode _ s0 _ [] (by simp) ev hev
  · intro mode' hmode
    cases hinit : initOpt (initialMean sim) sigma_val with
    | none =>
      rw [run_cma_es_of_init_none opt sim initOpt mode gens sigma_val hinit,
        run_cma_es_of_init_none opt sim initOpt mode' gens sigma_val hinit]
      exact ⟨rfl, rfl, rfl⟩
    | some s0 =>
      rw [run_cma_es_of_init_some opt sim initOpt mode gens sigma_val s0 hinit,
        run_cma_es_of_init_some opt sim initOpt mode' gens sigma_val s0 hinit]
      exact genFold_mode_indep opt sim mode mode' "" hmode _ s0 _ [] [] rfl

theorem mode_forwarded_verbatim_witness :
    (run_cma_es demoOpt demoSim demoInit "zzz" 1 1).log =
      (run_cma_es demoOpt demoSim demoInit "s" 1 1).log :=
  ((mode_forwarded_verbatim demoOpt demoSim demoInit "zzz" 1 1).2 "s"
    (fun _ _ _ _ _ => rfl)).1

/-- C7: the run label the driver passes to the simulator determines the
`(generation, slot)` pair uniquely — distinct pairs give distinct label
strings — and within a generation the labels of the simulator calls are
exactly `mkLabel g i` for the processed slot indices `i`, in order, which
is the only place the driver uses them. -/
theorem run_labels_injective :
    (∀ g i g' i' : Nat, mkLabel g i = mkLabel g' i' → g = g' ∧ i = i') ∧
    (∀ (σ : Type) (opt : Optimizer σ) (sim : SimCfg) (mode : String) (g : Nat)
      (idxs : List Nat) (s : σ),
      (askAll opt sim mode g idxs s).2.1.filterMap Event.labelOf = idxs.map (mkLabel g)) :=
  ⟨fun _ _ _ _ h => mkLabel_inj h,
   fun _ opt sim mode g idxs s => askAll_labels opt sim mode g idxs s⟩

theorem run_labels_injective_witness :
    ((askAll demoOpt demoSim "h" 7 [0, 1] 0).2.1.filterMap Event.labelOf =
      [0, 1].map (mkLabel 7)) ∧ ((3 : Nat) = 3 ∧ (12 : Nat) = 12) :=
  ⟨run_labels_injective.2 Nat demoOpt demoSim "h" 7 [0, 1] 0,
   run_labels_injective.1 3 12 3 12 rfl⟩

/-- C8: started with no CLI arguments the driver runs with mode `"h"`,
100 generations and sigma 2; and because `--sigma` is declared with
`type=int`, any token the integer parser rejects (such as `"2.5"`) makes
argument parsing fail before any run starts. -/
theorem cli_defaults_and_int_sigma {σ : Type} (opt : Optimizer σ) (sim : SimCfg)
    (initOpt : List ℚ → ℚ → Option σ) :
    main_run opt sim initOpt [] =
      some (run_cma_es opt sim initOpt "h" 100 ((2 : Int) : ℚ)) ∧
    (∀ tok : String, pyParseInt tok = none →
      main_run opt sim initOpt ["--sigma", tok] = none) := by
  constructor
  · rfl
  · intro tok htok
    simp [main_run, parseArgs, parseArgsFrom, htok]

theorem cli_defaults_and_int_sigma_witness :
    main_run demoOpt demoSim demoInit [] =
      some (run_cma_es demoOpt demoSim demoInit "h" 100 ((2 : Int) : ℚ)) ∧
    main_run demoOpt demoSim demoInit ["--sigma", "2.5"] = none :=
  ⟨(cli_defaults_and_int_sigma demoOpt demoSim demoInit).1,
   (cli_defaults_and_int_sigma demoOpt demoSim demoInit).2 "2.5" (by decide)⟩

/-- C10: the mean vector handed to the optimizer constructor is the triple
(average frequency, average amplitude, average phase offset) repeated once
per actuator: its length is `3 × NUM_ACTUATORS` and its entry at every
index `j` is the `j % 3`-th component of the triple. -/
theorem initial_mean_triples (sim : SimCfg) :
    (initialMean sim).length = 3 * sim.NUM_ACTUATORS ∧
    ∀ j : Nat, j < 3 * sim.NUM_ACTUATORS →
      (initialMean sim).getD j 0 =
        [sim.AVG_FREQ, sim.AVG_AMP, sim.AVG_PHASE_OFFSET].getD (j % 3) 0 := by
  constructor
  · simp [initialMean]
    ring
  · intro j hj
    exact flatten_replicate_triple_getD sim.AVG_FREQ sim.AVG_AMP sim.AVG_PHASE_OFFSET
      sim.NUM_ACTUATORS j hj

theorem initial_mean_triples_witness :
    (initialMean demoSim).length = 3 * demoSim.NUM_ACTUATORS ∧
    (initialMean demoSim).getD 4 0 =
      [demoSim.AVG_FREQ, demoSim.AVG_AMP, demoSim.AVG_PHASE_OFFSET].getD (4 % 3) 0 :=
  ⟨(initial_mean_triples demoSim).1, (initial_mean_triples demoSim).2 4 (by decide)⟩
